import Mathlib

/-!
Shallow embedding of the luksctl core (src/luks.rs, src/mount.rs, src/mapper.rs,
src/bin/luks_mount.rs) and proofs about it.

Rust strings are modelled as `List Char`; `str::len()` (a byte count) is modelled by
`byteLen`, the sum of the UTF-8 sizes of the characters.  Fallible Rust functions
returning `anyhow::Result` are modelled as `Except E A` with a typed error
constructor per distinct `bail!` message.  External effects (the filesystem under
`/run/luksctl`, the spawned `cryptsetup`/`mount` processes, the device-mapper
namespace) are modelled by explicit state passing and injected operation parameters.
-/

deriving instance DecidableEq for Except

/-- Rust `str::len()`: the UTF-8 byte length of a character list. -/
def byteLen (l : List Char) : Nat := (l.map Char.utf8Size).sum

/-- Rust `str::starts_with` on character lists. -/
def startsWith : List Char → List Char → Bool
  | [], _ => true
  | _ :: _, [] => false
  | p :: ps, c :: cs => p == c && startsWith ps cs

/-- Rust `str::contains(pat)` for a string pattern: `pat` occurs contiguously. -/
def containsSub (pat : List Char) : List Char → Bool
  | [] => startsWith pat []
  | c :: rest => startsWith pat (c :: rest) || containsSub pat rest

/-- Rust `str::split(sep)` on character lists: `""` yields `[""]`, separators at the
    ends yield empty fields. -/
def splitOnChar (sep : Char) : List Char → List (List Char)
  | [] => [[]]
  | c :: rest =>
    if c == sep then [] :: splitOnChar sep rest
    else
      match splitOnChar sep rest with
      | [] => [[c]]
      | t :: ts => (c :: t) :: ts

/-- Rust `str::splitn(2, sep)`: at most two fields, split at the first separator. -/
def splitn2 (sep : Char) : List Char → List (List Char)
  | [] => [[]]
  | c :: rest =>
    if c == sep then [[], rest]
    else
      match splitn2 sep rest with
      | [] => [[c]]
      | t :: ts => (c :: t) :: ts

/-- The Unicode `White_Space` code points, the set trimmed by Rust `str::trim`. -/
def rustWhitespace : List Nat :=
  [0x09, 0x0A, 0x0B, 0x0C, 0x0D, 0x20, 0x85, 0xA0, 0x1680,
   0x2000, 0x2001, 0x2002, 0x2003, 0x2004, 0x2005, 0x2006, 0x2007, 0x2008, 0x2009,
   0x200A, 0x2028, 0x2029, 0x202F, 0x205F, 0x3000]

/-- Rust `char::is_whitespace`. -/
def isRustWhitespace (c : Char) : Bool := rustWhitespace.contains c.toNat

/-- Rust `str::trim`: drop whitespace from both ends. -/
def rustTrim (l : List Char) : List Char :=
  ((l.dropWhile isRustWhitespace).reverse.dropWhile isRustWhitespace).reverse

/-- Rust `Vec::<String>::join(",")`. -/
def joinComma : List (List Char) → List Char
  | [] => []
  | [a] => a
  | a :: b :: rest => a ++ ',' :: joinComma (b :: rest)

/-- The character class `[A-Za-z0-9_-]` named by the specification, spelled as
    explicit code-point ranges (A-Z is 65-90, a-z is 97-122, 0-9 is 48-57, `_` and
    `-`).  Used to state the spec side of the mapper-name characterization. -/
def mapperNameClass : List Char :=
  ((List.range 26).map (fun i => Char.ofNat (65 + i))) ++
  ((List.range 26).map (fun i => Char.ofNat (97 + i))) ++
  ((List.range 10).map (fun i => Char.ofNat (48 + i))) ++ ['_', '-']

namespace Mapper

/-- Typed rendering of the distinct error exits of src/mapper.rs. -/
inductive Err
  | pathContainsNull
  | pathTooLong
  | pathTraversalDetected
  | nameInvalidLength
  | nameMustStartLuks
  | nameInvalidChars
  | stateNotRegularFile
  | stateContentTooLarge
  | ioError
deriving DecidableEq, Repr

/-- `MAX_ESCAPED_NAME_LEN` (src/mapper.rs line 26). -/
def MAX_ESCAPED_NAME_LEN : Nat := 255

/-- `escape_mount_path` (src/mapper.rs lines 52-75): reject NUL, replace `/` by `_`,
    bound the length, reject a leading `.` or a surviving `..`. -/
def escape_mount_path (mount_point : List Char) : Except Err (List Char) :=
  if mount_point.contains '\x00' then .error .pathContainsNull
  else
    let escaped := mount_point.map (fun c => if c == '/' then '_' else c)
    if byteLen escaped > MAX_ESCAPED_NAME_LEN then .error .pathTooLong
    else if startsWith ".".data escaped || containsSub "..".data escaped then
      .error .pathTraversalDetected
    else .ok escaped

/-- `validate_mapper_name` (src/mapper.rs lines 78-94): non-empty, at most 128 bytes,
    the `luks-` ownership prefix, and no `/`, NUL or `..`; this variant checks no
    character allow-list. -/
def validate_mapper_name (name : List Char) : Except Err Unit :=
  if name.isEmpty || byteLen name > 128 then .error .nameInvalidLength
  else if !startsWith "luks-".data name then .error .nameMustStartLuks
  else if name.contains '/' || name.contains '\x00' || containsSub "..".data name then
    .error .nameInvalidChars
  else .ok ()

/-- A node of the state directory `/run/luksctl`, as far as the store functions
    distinguish them.  A symbolic link records only whether its target exists:
    `Path::exists()` follows links, while `symlink_metadata(..).is_file()` is false
    for any link. -/
inductive FsNode
  | regular (content : List Char)
  | symlinkToFile
  | symlinkDangling
  | directory
deriving DecidableEq, Repr

/-- The contents of the state directory, keyed by the escaped mount-point filename;
    an earlier binding shadows a later one (upsert prepends). -/
abbrev FsState := List (List Char × FsNode)

/-- Rust `Path::exists()` for an entry of the state directory: follows symlinks, so a
    dangling link reports `false`. -/
def pathExists (fs : FsState) (name : List Char) : Bool :=
  match fs.lookup name with
  | some (.regular _) => true
  | some .symlinkToFile => true
  | some .symlinkDangling => false
  | some .directory => true
  | none => false

/-- `store_mount_mapping` (src/mapper.rs lines 102-138): validate the name, escape the
    mount point, write `name:device` to the state file (create + truncate).  A write
    when the path holds a symlink goes through the link to its target, which lies
    outside the modelled directory: the directory keeps the link (and a dangling
    link's target comes to exist).  Opening a directory for writing fails. -/
def store_mount_mapping (fs : FsState) (mount_point mapper_name device : List Char) :
    Except Err FsState := do
  let _ ← validate_mapper_name mapper_name
  let escaped ← escape_mount_path mount_point
  let content := mapper_name ++ ':' :: device
  match fs.lookup escaped with
  | some .symlinkToFile => .ok fs
  | some .symlinkDangling => .ok ((escaped, .symlinkToFile) :: fs)
  | some .directory => .error .ioError
  | _ => .ok ((escaped, .regular content) :: fs)

/-- `get_mount_mapping` (src/mapper.rs lines 145-182): escape, `exists()` gate,
    regular-file check via `symlink_metadata`, 1024-byte cap, `splitn(2, ':')`, and
    validation of the retrieved name. -/
def get_mount_mapping (fs : FsState) (mount_point : List Char) :
    Except Err (Option (List Char × List Char)) := do
  let escaped ← escape_mount_path mount_point
  if !pathExists fs escaped then .ok none
  else
    match fs.lookup escaped with
    | some (.regular content) =>
      if byteLen content > 1024 then .error .stateContentTooLarge
      else
        match splitn2 ':' content with
        | [mapper_name, device_path] => do
          let _ ← validate_mapper_name mapper_name
          .ok (some (mapper_name, device_path))
        | _ => .ok none
    | some .symlinkToFile => .error .stateNotRegularFile
    | some .directory => .error .stateNotRegularFile
    | _ => .ok none

/-- `remove_mount_mapping` (src/mapper.rs lines 189-208): no-op when `exists()` is
    false, regular-file check, then delete. -/
def remove_mount_mapping (fs : FsState) (mount_point : List Char) : Except Err FsState := do
  let escaped ← escape_mount_path mount_point
  if pathExists fs escaped then
    match fs.lookup escaped with
    | some (.regular _) => .ok (fs.filter (fun e => !(e.1 == escaped)))
    | some .symlinkToFile => .error .stateNotRegularFile
    | some .directory => .error .stateNotRegularFile
    | _ => .ok fs
  else .ok fs

end Mapper

namespace Luks

/-- Typed rendering of the error exits of src/luks.rs relevant here. -/
inductive Err
  | mapperNameEmpty
  | mapperNameTooLong
  | mapperNameForbiddenChars
  | authenticationFailed
  | openFailed (diagnostic : List Char)
deriving DecidableEq, Repr

/-- `ALLOWED_MAPPER_CHARS` (src/luks.rs line 20). -/
def ALLOWED_MAPPER_CHARS : List Char :=
  "abcdefghijklmnopqrstuvwxyzABCDEFGHIJKLMNOPQRSTUVWXYZ0123456789-_".data

/-- `validate_mapper_name` (src/luks.rs lines 23-43): non-empty, at most 128 bytes,
    no `..`/`/`/NUL, and only characters from the allow-list. -/
def validate_mapper_name (name : List Char) : Except Err Unit :=
  if name.isEmpty then .error .mapperNameEmpty
  else if byteLen name > 128 then .error .mapperNameTooLong
  else if containsSub "..".data name || name.contains '/' || name.contains '\x00' then
    .error .mapperNameForbiddenChars
  else if !(name.all (fun c => ALLOWED_MAPPER_CHARS.contains c)) then
    .error .mapperNameForbiddenChars
  else .ok ()

/-- The exit handling of `luks_open` (src/luks.rs lines 118-125): on non-zero exit,
    stderr holding "No key available" or "wrong" yields the fixed generic
    authentication failure, otherwise the trimmed stderr is surfaced. -/
def classify_open_exit (exitSuccess : Bool) (stderr : List Char) : Except Err Unit :=
  if exitSuccess then .ok ()
  else if containsSub "No key available".data stderr || containsSub "wrong".data stderr then
    .error .authenticationFailed
  else .error (.openFailed (rustTrim stderr))

end Luks

namespace Mount

/-- Typed rendering of the error exits of src/mount.rs relevant here. -/
inductive Err
  | invalidFsType
  | fsTypeTooLong
  | unsupportedFsType
  | optionsNullBytes
  | optionsTooLong
  | optionForbiddenChars
deriving DecidableEq, Repr

/-- `ALLOWED_FS_TYPES` (src/mount.rs lines 14-17). -/
def ALLOWED_FS_TYPES : List (List Char) :=
  ["ext2".data, "ext3".data, "ext4".data, "xfs".data, "btrfs".data, "f2fs".data,
   "ntfs".data, "ntfs3".data, "vfat".data, "exfat".data, "iso9660".data, "udf".data,
   "hfsplus".data, "jfs".data, "reiserfs".data]

/-- `MountOptions` (src/mount.rs lines 27-32). -/
structure MountOptions where
  read_only : Bool
  fs_type : Option (List Char)
  options : Option (List Char)
deriving DecidableEq, Repr

/-- `validate_fs_type` (src/mount.rs lines 35-53); `to_lowercase` is modelled per
    character, exact on ASCII, which covers the whole allow-list. -/
def validate_fs_type (fs_type : List Char) : Except Err Unit :=
  if fs_type.contains '\x00' || fs_type.contains '/' then .error .invalidFsType
  else if byteLen fs_type > 32 then .error .fsTypeTooLong
  else if !(ALLOWED_FS_TYPES.contains (fs_type.map Char.toLower)) then
    .error .unsupportedFsType
  else .ok ()

/-- The shell-metacharacter test of `validate_mount_options` (src/mount.rs
    lines 78-80): one of `; & | $` backtick, newline, carriage return, backslash,
    double quote, single quote. -/
def hasShellMetachar (t : List Char) : Bool :=
  t.any (fun c =>
    c == ';' || c == '&' || c == '|' || c == '$' || c == Char.ofNat 96 ||
    c == '\n' || c == '\r' || c == '\\' || c == Char.ofNat 34 || c == Char.ofNat 39)

/-- The per-token loop of `validate_mount_options` (src/mount.rs lines 68-96): trim
    each token, skip empties, reject the first token holding a metacharacter, keep the
    rest.  The forbidden-option comparison on lines 88-93 only prints a warning and
    does not alter the result. -/
def processTokens : List (List Char) → Except Err (List (List Char))
  | [] => .ok []
  | tok :: rest =>
    let t := rustTrim tok
    if t.isEmpty then processTokens rest
    else if hasShellMetachar t then .error .optionForbiddenChars
    else do
      let r ← processTokens rest
      .ok (t :: r)

/-- `validate_mount_options` (src/mount.rs lines 56-99): NUL check, 1024-byte cap,
    then the token loop, re-joined with commas. -/
def validate_mount_options (options : List Char) : Except Err (List Char) :=
  if options.contains '\x00' then .error .optionsNullBytes
  else if byteLen options > 1024 then .error .optionsTooLong
  else do
    let toks ← processTokens (splitOnChar ',' options)
    .ok (joinComma toks)

/-- The option-assembly part of `mount_device` (src/mount.rs lines 171-205): the
    string passed as the `-o` argument of the external `mount` invocation (`none` if
    the assembled list were empty, mirroring line 200).  `nosuid` and `nodev` are
    pushed first (lines 177-178), then `ro` (line 182), then the validated caller
    options (line 195).  The fs-type validation of line 187 runs before the option
    validation of line 193.  The device/mount-point path checks of lines 168-169
    touch the live filesystem, precede this, and leave the options untouched. -/
def mount_device_opt_arg (options : MountOptions) : Except Err (Option (List Char)) :=
  let base : List (List Char) := ["nosuid".data, "nodev".data]
  let withRo := if options.read_only then base ++ ["ro".data] else base
  match (match options.fs_type with
         | some fs => validate_fs_type fs
         | none => .ok ()) with
  | .error e => .error e
  | .ok _ =>
    match (match options.options with
           | some o =>
             (validate_mount_options o).map
               (fun (validated : List Char) =>
                 if validated.isEmpty then withRo else withRo ++ [validated])
           | none => .ok withRo) with
    | .error e => .error e
    | .ok final => .ok (if final.isEmpty then none else some (joinComma final))

end Mount

namespace Orchestrator

/-- One call to an external privileged operation, as recorded in a trace. -/
inductive GatewayCall
  | openCall (device mapper : List Char)
  | mountCall (device mount_point : List Char)
  | closeCall (mapper : List Char)
  | storeCall (mount_point mapper device : List Char)
deriving DecidableEq, Repr

/-- The injected privileged operations: each returns success or a failure
    diagnostic.  This is the testing seam of §4.4/§9 of the design. -/
structure Gateway where
  openOp : List Char → List Char → Except (List Char) Unit
  mountOp : List Char → List Char → Except (List Char) Unit
  closeOp : List Char → Except (List Char) Unit
  storeOp : List Char → List Char → List Char → Except (List Char) Unit

/-- `get_mapper_path` (src/mapper.rs lines 37-39). -/
def get_mapper_path (mapper_name : List Char) : List Char :=
  "/dev/mapper/".data ++ mapper_name

/-- The open → mount → store tail of `main` in src/bin/luks_mount.rs
    (lines 163-188), over injected operations; returns the result together with the
    trace of gateway calls in order.  On mount failure the just-opened mapper is
    closed — the close result is discarded (line 183) — and the mount error is
    returned (lines 180-185). -/
def attach_protocol (g : Gateway) (device mount_point mapper_name : List Char) :
    Except (List Char) Unit × List GatewayCall :=
  match g.openOp device mapper_name with
  | .error e => (.error e, [.openCall device mapper_name])
  | .ok _ =>
    let mapper_path := get_mapper_path mapper_name
    match g.mountOp mapper_path mount_point with
    | .error e =>
      let _ := g.closeOp mapper_name
      (.error e,
       [.openCall device mapper_name, .mountCall mapper_path mount_point,
        .closeCall mapper_name])
    | .ok _ =>
      match g.storeOp mount_point mapper_name device with
      | .error e =>
        (.error e,
         [.openCall device mapper_name, .mountCall mapper_path mount_point,
          .storeCall mount_point mapper_name device])
      | .ok _ =>
        (.ok (),
         [.openCall device mapper_name, .mountCall mapper_path mount_point,
          .storeCall mount_point mapper_name device])

/-- Outcome of the unique-name generation loop, carrying the candidate names
    generated, in order. -/
inductive GenOutcome
  | ok (name : List Char) (tried : List (List Char))
  | exhausted (tried : List (List Char))
deriving DecidableEq, Repr

/-- `MAX_RETRIES` (src/bin/luks_mount.rs line 137). -/
def MAX_RETRIES : Nat := 10

/-- The name-generation loop of src/bin/luks_mount.rs lines 138-150, over an injected
    name source `gen` (indexed by how many names were drawn before) and an injected
    namespace check `mapperExists`.  `i` is the `attempts` counter, `rem` is
    `MAX_RETRIES - attempts`: each iteration draws a name, returns it if free,
    otherwise increments `attempts`; `rem = 0` is exactly the
    `attempts >= MAX_RETRIES` bail-out, reached after the tenth colliding name. -/
def generate_loop (gen : Nat → List Char) (mapperExists : List Char → Bool) :
    Nat → Nat → List (List Char) → GenOutcome
  | _, 0, tried => .exhausted tried.reverse
  | i, rem + 1, tried =>
    let name := gen i
    if mapperExists name then generate_loop gen mapperExists (i + 1) rem (name :: tried)
    else .ok name (name :: tried).reverse

/-- The unique-name generation of src/bin/luks_mount.rs lines 136-150. -/
def generate_unique_mapper_name (gen : Nat → List Char)
    (mapperExists : List Char → Bool) : GenOutcome :=
  generate_loop gen mapperExists 0 MAX_RETRIES []

end Orchestrator

/-! ### Helper lemmas -/

theorem startsWith_self_append (p t : List Char) : startsWith p (p ++ t) = true := by
  induction p with
  | nil => rfl
  | cons c cs ih => simp [startsWith, ih]

theorem containsSub_of_startsWith {p l : List Char} (h : startsWith p l = true) :
    containsSub p l = true := by
  cases l with
  | nil => simpa [containsSub] using h
  | cons c rest => simp [containsSub, h]

theorem containsSub_append_left (p a l : List Char) (h : containsSub p l = true) :
    containsSub p (a ++ l) = true := by
  induction a with
  | nil => simpa using h
  | cons c cs ih => simp [containsSub, ih]

theorem byteLen_append (a b : List Char) : byteLen (a ++ b) = byteLen a + byteLen b := by
  simp [byteLen]

theorem joinComma_cons_cons (a b : List Char) (rest : List (List Char)) :
    ∃ t, joinComma (a :: b :: rest) = (a ++ ',' :: b) ++ t := by
  cases rest with
  | nil => exact ⟨[], by simp [joinComma]⟩
  | cons r rs => exact ⟨',' :: joinComma (r :: rs), by simp [joinComma]⟩

theorem splitn2_append_of_no_sep (sep : Char) (a b : List Char) (h : sep ∉ a) :
    splitn2 sep (a ++ sep :: b) = [a, b] := by
  induction a with
  | nil => simp [splitn2]
  | cons c cs ih =>
    have hc : (c == sep) = false := by
      have : c ≠ sep := fun hcc => h (by simp [hcc])
      simpa using this
    have hcs : sep ∉ cs := fun hm => h (List.mem_cons_of_mem _ hm)
    simp [splitn2, hc, ih hcs]

/-! ### Claim theorems -/

/-- C1: attach rollback.  If the open operation succeeds and the mount operation
    fails with error `e`, the attach protocol returns `e`, its gateway trace is
    exactly open, mount, close — so the close operation runs exactly once, with the
    same mapper name that was passed to open, before the attach returns. -/
theorem attach_rollback (g : Orchestrator.Gateway) (device mp mapper e : List Char)
    (hopen : g.openOp device mapper = .ok ())
    (hmount : g.mountOp (Orchestrator.get_mapper_path mapper) mp = .error e) :
    (Orchestrator.attach_protocol g device mp mapper).1 = .error e ∧
    (Orchestrator.attach_protocol g device mp mapper).2 =
      [.openCall device mapper, .mountCall (Orchestrator.get_mapper_path mapper) mp,
       .closeCall mapper] ∧
    (Orchestrator.attach_protocol g device mp mapper).2.count
      (Orchestrator.GatewayCall.closeCall mapper) = 1 := by
  have hp : Orchestrator.attach_protocol g device mp mapper =
      (.error e,
       [.openCall device mapper, .mountCall (Orchestrator.get_mapper_path mapper) mp,
        .closeCall mapper]) := by
    simp [Orchestrator.attach_protocol, hopen, hmount]
  rw [hp]
  refine ⟨rfl, rfl, ?_⟩
  simp [List.count_cons, beq_iff_eq]

/-- C1 witness: a concrete gateway whose open succeeds and whose mount fails. -/
theorem attach_rollback_witness :
    (Orchestrator.attach_protocol
      ⟨fun _ _ => .ok (), fun _ _ => .error "boom".data, fun _ => .ok (),
       fun _ _ _ => .ok ()⟩
      "/dev/sdb1".data "/mnt/secure".data "luks-test".data).1 = .error "boom".data ∧
    (Orchestrator.attach_protocol
      ⟨fun _ _ => .ok (), fun _ _ => .error "boom".data, fun _ => .ok (),
       fun _ _ _ => .ok ()⟩
      "/dev/sdb1".data "/mnt/secure".data "luks-test".data).2 =
      [.openCall "/dev/sdb1".data "luks-test".data,
       .mountCall (Orchestrator.get_mapper_path "luks-test".data) "/mnt/secure".data,
       .closeCall "luks-test".data] ∧
    (Orchestrator.attach_protocol
      ⟨fun _ _ => .ok (), fun _ _ => .error "boom".data, fun _ => .ok (),
       fun _ _ _ => .ok ()⟩
      "/dev/sdb1".data "/mnt/secure".data "luks-test".data).2.count
      (Orchestrator.GatewayCall.closeCall "luks-test".data) = 1 :=
  attach_rollback _ "/dev/sdb1".data "/mnt/secure".data "luks-test".data "boom".data
    rfl rfl

/-- C6 (amended): a symbolic link planted at the state-file path whose target exists
    makes both `get_mount_mapping` and `remove_mount_mapping` fail with the
    tamper error (nothing is read or deleted); a dangling symbolic link instead makes
    `get_mount_mapping` return `none` and `remove_mount_mapping` a no-op, because the
    `exists()` gate follows links and reports false. -/
theorem tamper_rejection (fs : Mapper.FsState) (mp esc : List Char)
    (hesc : Mapper.escape_mount_path mp = .ok esc) :
    (fs.lookup esc = some Mapper.FsNode.symlinkToFile →
      Mapper.get_mount_mapping fs mp = .error .stateNotRegularFile ∧
      Mapper.remove_mount_mapping fs mp = .error .stateNotRegularFile) ∧
    (fs.lookup esc = some Mapper.FsNode.symlinkDangling →
      Mapper.get_mount_mapping fs mp = .ok none ∧
      Mapper.remove_mount_mapping fs mp = .ok fs) := by
  constructor <;> intro h <;>
    exact ⟨by simp [Mapper.get_mount_mapping, hesc, Mapper.pathExists, h, bind, Except.bind],
           by simp [Mapper.remove_mount_mapping, hesc, Mapper.pathExists, h, bind, Except.bind]⟩

/-- C6 counterexample: with a dangling symbolic link at the expected state-file
    location, `get_mount_mapping` returns `Ok(None)` and `remove_mount_mapping` is a
    no-op — neither fails with the tamper error, refuting the claim's "regardless of
    whether the link target exists". -/
theorem tamper_claim_counterexample :
    Mapper.get_mount_mapping [("_mnt_x".data, Mapper.FsNode.symlinkDangling)]
      "/mnt/x".data = .ok none ∧
    Mapper.remove_mount_mapping [("_mnt_x".data, Mapper.FsNode.symlinkDangling)]
      "/mnt/x".data = .ok [("_mnt_x".data, Mapper.FsNode.symlinkDangling)] ∧
    (Except.ok none : Except Mapper.Err (Option (List Char × List Char))) ≠
      .error .stateNotRegularFile := by
  decide

/-- C6 witness: a symbolic link with existing target is rejected by both operations. -/
theorem tamper_rejection_witness :
    Mapper.get_mount_mapping [("_mnt_a".data, Mapper.FsNode.symlinkToFile)]
      "/mnt/a".data = .error .stateNotRegularFile ∧
    Mapper.remove_mount_mapping [("_mnt_a".data, Mapper.FsNode.symlinkToFile)]
      "/mnt/a".data = .error .stateNotRegularFile :=
  (tamper_rejection [("_mnt_a".data, Mapper.FsNode.symlinkToFile)] "/mnt/a".data
    "_mnt_a".data (by decide)).1 (by decide)

/-- C7: a state file that exists, is regular and within the 1024-byte cap, whose
    content does not split into exactly two `:`-separated fields, makes
    `get_mount_mapping` return `None`, not an error. -/
theorem corrupt_record_returns_none (fs : Mapper.FsState) (mp esc content : List Char)
    (hesc : Mapper.escape_mount_path mp = .ok esc)
    (hnode : fs.lookup esc = some (Mapper.FsNode.regular content))
    (hsize : byteLen content ≤ 1024)
    (hparse : (splitn2 ':' content).length ≠ 2) :
    Mapper.get_mount_mapping fs mp = .ok none := by
  have hb : ¬ (byteLen content > 1024) := by omega
  rcases hl : splitn2 ':' content with _ | ⟨a, _ | ⟨b, _ | ⟨c, rest⟩⟩⟩
  · simp [Mapper.get_mount_mapping, hesc, Mapper.pathExists, hnode, hb, hl, bind, Except.bind]
  · simp [Mapper.get_mount_mapping, hesc, Mapper.pathExists, hnode, hb, hl, bind, Except.bind]
  · exact absurd (by rw [hl]; rfl) hparse
  · simp [Mapper.get_mount_mapping, hesc, Mapper.pathExists, hnode, hb, hl, bind, Except.bind]

/-- C7 witness: a record with no `:` separator reads back as `None`. -/
theorem corrupt_record_returns_none_witness :
    Mapper.get_mount_mapping
      [("_mnt_x".data, Mapper.FsNode.regular "garbage without separator".data)]
      "/mnt/x".data = .ok none :=
  corrupt_record_returns_none
    [("_mnt_x".data, Mapper.FsNode.regular "garbage without separator".data)]
    "/mnt/x".data "_mnt_x".data "garbage without separator".data
    (by decide) (by decide) (by decide) (by decide)

/-- C8: when the external open operation exits non-zero, a diagnostic holding an
    authentication-failure marker ("No key available" or "wrong") yields the fixed
    generic authentication failure, which carries no text from the diagnostic; any
    other diagnostic is surfaced trimmed of surrounding whitespace. -/
theorem auth_failure_opacity (stderr : List Char) :
    ((containsSub "No key available".data stderr ||
      containsSub "wrong".data stderr) = true →
      Luks.classify_open_exit false stderr = .error .authenticationFailed) ∧
    ((containsSub "No key available".data stderr ||
      containsSub "wrong".data stderr) = false →
      Luks.classify_open_exit false stderr = .error (.openFailed (rustTrim stderr))) := by
  constructor <;> intro h <;> simp [Luks.classify_open_exit, h]

/-- C8 witness: a wrong-passphrase diagnostic is reported generically; an unrelated
    diagnostic is surfaced trimmed. -/
theorem auth_failure_opacity_witness :
    Luks.classify_open_exit false "  Keyslot open failed: wrong passphrase ".data =
      .error .authenticationFailed ∧
    Luks.classify_open_exit false " device busy \n".data =
      .error (.openFailed (rustTrim " device busy \n".data)) :=
  ⟨(auth_failure_opacity "  Keyslot open failed: wrong passphrase ".data).1 (by decide),
   (auth_failure_opacity " device busy \n".data).2 (by decide)⟩

/-- C9: when the namespace check reports every candidate as existing, the
    unique-name loop draws exactly the 10 candidates `gen 0 .. gen 9` and then
    terminates with the exhausted outcome. -/
theorem identity_retry_bound (gen : Nat → List Char) (mapperExists : List Char → Bool)
    (h : ∀ n, mapperExists (gen n) = true) :
    Orchestrator.generate_unique_mapper_name gen mapperExists =
      .exhausted ((List.range 10).map gen) ∧
    ((List.range 10).map gen).length = 10 := by
  refine ⟨?_, by simp⟩
  have aux : ∀ rem i acc,
      Orchestrator.generate_loop gen mapperExists i rem acc =
        .exhausted (acc.reverse ++ (List.range' i rem).map gen) := by
    intro rem
    induction rem with
    | zero => intro i acc; simp [Orchestrator.generate_loop]
    | succ r ih =>
      intro i acc
      simp [Orchestrator.generate_loop, h, ih, List.range'_succ]
  have := aux 10 0 []
  simpa [Orchestrator.generate_unique_mapper_name, Orchestrator.MAX_RETRIES,
    List.range_eq_range'] using this

/-- C9 witness: with a stub check that always reports "exists", the loop exhausts
    after the ten generated candidates. -/
theorem identity_retry_bound_witness :
    Orchestrator.generate_unique_mapper_name (fun _ => "luks-x".data) (fun _ => true) =
      .exhausted ((List.range 10).map (fun _ => "luks-x".data)) ∧
    ((List.range 10).map (fun _ : Nat => "luks-x".data)).length = 10 :=
  identity_retry_bound (fun _ => "luks-x".data) (fun _ => true) (fun _ => rfl)

/-- C10: escaping is not injective.  `/mnt/data` and `/mnt_data` are distinct
    accepted mount points that escape to the same state filename `_mnt_data`, so
    storing a record for the second overwrites the record stored for the first, and
    a subsequent lookup on either mount point returns the most recently stored
    record. -/
theorem escape_collision_overwrite :
    Mapper.escape_mount_path "/mnt/data".data = .ok "_mnt_data".data ∧
    Mapper.escape_mount_path "/mnt_data".data = .ok "_mnt_data".data ∧
    "/mnt/data".data ≠ "/mnt_data".data ∧
    Mapper.store_mount_mapping [] "/mnt/data".data "luks-aaa".data "/dev/sda1".data =
      .ok [("_mnt_data".data, .regular "luks-aaa:/dev/sda1".data)] ∧
    Mapper.store_mount_mapping
      [("_mnt_data".data, .regular "luks-aaa:/dev/sda1".data)]
      "/mnt_data".data "luks-bbb".data "/dev/sdb1".data =
      .ok [("_mnt_data".data, .regular "luks-bbb:/dev/sdb1".data),
           ("_mnt_data".data, .regular "luks-aaa:/dev/sda1".data)] ∧
    Mapper.get_mount_mapping
      [("_mnt_data".data, .regular "luks-bbb:/dev/sdb1".data),
       ("_mnt_data".data, .regular "luks-aaa:/dev/sda1".data)] "/mnt/data".data =
      .ok (some ("luks-bbb".data, "/dev/sdb1".data)) ∧
    Mapper.get_mount_mapping
      [("_mnt_data".data, .regular "luks-bbb:/dev/sdb1".data),
       ("_mnt_data".data, .regular "luks-aaa:/dev/sda1".data)] "/mnt_data".data =
      .ok (some ("luks-bbb".data, "/dev/sdb1".data)) := by
  decide

/-- Helper: whenever `mount_device` reaches the external mount invocation, the
    assembled `-o` argument is `some` list beginning with the two forced flags. -/
theorem mount_opt_arg_shape (mo : Mount.MountOptions) (arg : Option (List Char))
    (h : Mount.mount_device_opt_arg mo = .ok arg) :
    ∃ rest, arg = some (joinComma ("nosuid".data :: "nodev".data :: rest)) := by
  rcases mo with ⟨ro, ft, op⟩
  cases ro <;> cases ft <;> cases op <;>
    simp only [Mount.mount_device_opt_arg] at h
  case mk.false.none.none =>
    simp at h
    exact ⟨[], h.symm⟩
  case mk.false.none.some v =>
    cases hvo : Mount.validate_mount_options v with
    | error e => rw [hvo] at h; simp [Except.map] at h
    | ok valid =>
      rw [hvo] at h
      cases hve : valid.isEmpty <;> simp [Except.map, hve] at h
      · exact ⟨[valid], h.symm⟩
      · exact ⟨[], h.symm⟩
  case mk.false.some.none v =>
    cases hft : Mount.validate_fs_type v with
    | error e => rw [hft] at h; simp at h
    | ok u =>
      rw [hft] at h; simp at h
      exact ⟨[], h.symm⟩
  case mk.false.some.some v w =>
    cases hft : Mount.validate_fs_type v with
    | error e => rw [hft] at h; simp at h
    | ok u =>
      rw [hft] at h
      cases hvo : Mount.validate_mount_options w with
      | error e => rw [hvo] at h; simp [Except.map] at h
      | ok valid =>
        rw [hvo] at h
        cases hve : valid.isEmpty <;> simp [Except.map, hve] at h
        · exact ⟨[valid], h.symm⟩
        · exact ⟨[], h.symm⟩
  case mk.true.none.none =>
    simp at h
    exact ⟨["ro".data], h.symm⟩
  case mk.true.none.some v =>
    cases hvo : Mount.validate_mount_options v with
    | error e => rw [hvo] at h; simp [Except.map] at h
    | ok valid =>
      rw [hvo] at h
      cases hve : valid.isEmpty <;> simp [Except.map, hve] at h
      · exact ⟨["ro".data, valid], h.symm⟩
      · exact ⟨["ro".data], h.symm⟩
  case mk.true.some.none v =>
    cases hft : Mount.validate_fs_type v with
    | error e => rw [hft] at h; simp at h
    | ok u =>
      rw [hft] at h; simp at h
      exact ⟨["ro".data], h.symm⟩
  case mk.true.some.some v w =>
    cases hft : Mount.validate_fs_type v with
    | error e => rw [hft] at h; simp at h
    | ok u =>
      rw [hft] at h
      cases hvo : Mount.validate_mount_options w with
      | error e => rw [hvo] at h; simp [Except.map] at h
      | ok valid =>
        rw [hvo] at h
        cases hve : valid.isEmpty <;> simp [Except.map, hve] at h
        · exact ⟨["ro".data, valid], h.symm⟩
        · exact ⟨["ro".data], h.symm⟩

/-- Helper: the comma-joined option string headed by `nosuid` and `nodev` contains
    both as substrings. -/
theorem joinComma_contains_hardening (rest : List (List Char)) :
    containsSub "nosuid".data (joinComma ("nosuid".data :: "nodev".data :: rest)) = true ∧
    containsSub "nodev".data (joinComma ("nosuid".data :: "nodev".data :: rest)) = true := by
  obtain ⟨t, ht⟩ := joinComma_cons_cons "nosuid".data "nodev".data rest
  rw [ht]
  constructor
  · apply containsSub_of_startsWith
    have he : ("nosuid".data ++ ',' :: "nodev".data) ++ t =
        "nosuid".data ++ ((',' :: "nodev".data) ++ t) := by simp
    rw [he]
    exact startsWith_self_append _ _
  · have he : ("nosuid".data ++ ',' :: "nodev".data) ++ t =
        "nosuid,".data ++ ("nodev".data ++ t) := by simp
    rw [he]
    exact containsSub_append_left _ _ _
      (containsSub_of_startsWith (startsWith_self_append _ _))

/-- C2: forced hardening flags.  For every `MountOptions` for which `mount_device`
    reaches the external mount invocation (the option assembly succeeds), the option
    string passed to that invocation contains both `nosuid` and `nodev`, regardless
    of the caller-supplied `read_only`, `fs_type` and `options` values. -/
theorem mount_forces_hardening_flags (mo : Mount.MountOptions) (arg : Option (List Char))
    (h : Mount.mount_device_opt_arg mo = .ok arg) :
    ∃ s, arg = some s ∧ containsSub "nosuid".data s = true ∧
      containsSub "nodev".data s = true := by
  obtain ⟨rest, hr⟩ := mount_opt_arg_shape mo arg h
  exact ⟨_, hr, (joinComma_contains_hardening rest).1, (joinComma_contains_hardening rest).2⟩

/-- C2 witness: a concrete invocation with caller options still carries the flags. -/
theorem mount_forces_hardening_flags_witness :
    ∃ s, (some "nosuid,nodev,ro,noatime,uid=1000".data : Option (List Char)) = some s ∧
      containsSub "nosuid".data s = true ∧ containsSub "nodev".data s = true :=
  mount_forces_hardening_flags ⟨true, some "ext4".data, some "noatime,uid=1000".data⟩
    (some "nosuid,nodev,ro,noatime,uid=1000".data) (by decide)

/-- Helper: the token loop of `validate_mount_options` fails only with the
    injection error. -/
theorem processTokens_error_shape (l : List (List Char)) (e : Mount.Err)
    (h : Mount.processTokens l = .error e) : e = .optionForbiddenChars := by
  induction l with
  | nil => simp [Mount.processTokens] at h
  | cons tok rest ih =>
    simp only [Mount.processTokens] at h
    split at h
    · exact ih h
    · split at h
      · cases h; rfl
      · cases hrest : Mount.processTokens rest with
        | error e2 =>
          rw [hrest] at h
          simp [bind, Except.bind] at h
          subst h
          exact ih hrest
        | ok r =>
          rw [hrest] at h
          simp [bind, Except.bind] at h

/-- Helper: the token loop rejects exactly when some trimmed non-empty token holds
    a shell metacharacter. -/
theorem processTokens_error_iff (l : List (List Char)) :
    Mount.processTokens l = .error .optionForbiddenChars ↔
      ∃ t ∈ l, rustTrim t ≠ [] ∧ Mount.hasShellMetachar (rustTrim t) = true := by
  induction l with
  | nil => simp [Mount.processTokens]
  | cons tok rest ih =>
    cases he : (rustTrim tok).isEmpty with
    | true =>
      have htok : rustTrim tok = [] := by simpa [List.isEmpty_iff] using he
      simp [Mount.processTokens, he, ih, htok]
    | false =>
      have htok : rustTrim tok ≠ [] := by simpa [List.isEmpty_iff] using he
      cases hm : Mount.hasShellMetachar (rustTrim tok) with
      | true =>
        simp only [Mount.processTokens, he, hm]
        constructor
        · intro _
          exact ⟨tok, by simp, htok, hm⟩
        · intro _
          simp
      | false =>
        simp only [Mount.processTokens, he, hm]
        cases hrest : Mount.processTokens rest with
        | error e2 =>
          have he2 : e2 = Mount.Err.optionForbiddenChars :=
            processTokens_error_shape rest e2 hrest
          subst he2
          simp [bind, Except.bind, hrest, htok, hm]
          exact ih.mp hrest
        | ok r =>
          simp only [bind, Except.bind, hrest]
          constructor
          · intro hh
            cases hh
          · rintro ⟨t, ht, hne, hmeta⟩
            rcases List.mem_cons.mp ht with rfl | hmem
            · exact absurd hmeta (by simp [hm])
            · exact absurd (ih.mpr ⟨t, hmem, hne, hmeta⟩) (by simp [hrest])

/-- C3 (amended): for inputs free of NUL bytes and at most 1024 bytes long,
    `validate_mount_options` fails with the option-injection error iff some trimmed
    non-empty comma-separated token contains a shell metacharacter; and the two
    concrete examples behave as claimed.  (Inputs containing NUL, or longer than
    1024 bytes, fail earlier with distinct errors — see the counterexample.) -/
theorem option_injection_characterization :
    (∀ s : List Char, '\x00' ∉ s → byteLen s ≤ 1024 →
      (Mount.validate_mount_options s = .error .optionForbiddenChars ↔
        ∃ t ∈ splitOnChar ',' s,
          rustTrim t ≠ [] ∧ Mount.hasShellMetachar (rustTrim t) = true)) ∧
    Mount.validate_mount_options "ro,exec;rm -rf /".data = .error .optionForbiddenChars ∧
    Mount.validate_mount_options "noatime,uid=1000".data = .ok "noatime,uid=1000".data := by
  refine ⟨?_, by decide, by decide⟩
  intro s hnul hlen
  have h0 : s.contains '\x00' = false := by simpa using hnul
  have hl2 : ¬ (byteLen s > 1024) := by omega
  simp only [Mount.validate_mount_options, h0, Bool.false_eq_true, if_false, hl2]
  cases hp : Mount.processTokens (splitOnChar ',' s) with
  | error e2 =>
    have he2 := processTokens_error_shape _ _ hp
    subst he2
    simp only [bind, Except.bind, hp]
    simp only [true_iff, iff_true]
    exact (processTokens_error_iff _).mp hp
  | ok r =>
    simp only [bind, Except.bind, hp]
    constructor
    · intro hh
      cases hh
    · rintro hex
      exact absurd ((processTokens_error_iff _).mpr hex) (by simp [hp])

/-- C3 counterexample: the input `a;\x00` has a (trimmed, non-empty) token holding
    the metacharacter `;`, yet `validate_mount_options` fails with the null-byte
    error, not the option-injection error, because the NUL check runs first. -/
theorem option_injection_claim_counterexample :
    (∃ t ∈ splitOnChar ',' "a;\x00".data,
      rustTrim t ≠ [] ∧ Mount.hasShellMetachar (rustTrim t) = true) ∧
    Mount.validate_mount_options "a;\x00".data = .error .optionsNullBytes ∧
    Mount.Err.optionsNullBytes ≠ Mount.Err.optionForbiddenChars := by decide

/-- C3 witness: a metacharacter inside a clean-length, NUL-free input is rejected
    with the option-injection error. -/
theorem option_injection_characterization_witness :
    Mount.validate_mount_options "uid=1000,a;b".data = .error .optionForbiddenChars :=
  (option_injection_characterization.1 "uid=1000,a;b".data (by decide) (by decide)).mpr
    (by decide)

/-- Helper: the allow-list string of src/luks.rs is exactly the character class
    `[A-Za-z0-9_-]`. -/
theorem mem_allowed_iff_class (c : Char) :
    Luks.ALLOWED_MAPPER_CHARS.contains c = true ↔ c ∈ mapperNameClass := by
  have h1 : ∀ x ∈ Luks.ALLOWED_MAPPER_CHARS, x ∈ mapperNameClass := by decide
  have h2 : ∀ x ∈ mapperNameClass, x ∈ Luks.ALLOWED_MAPPER_CHARS := by decide
  constructor
  · intro h
    exact h1 c (by simpa using h)
  · intro h
    simpa using h2 c h

/-- C4 (amended): the claimed characterization — success iff non-empty, at most
    128 bytes, every character in `[A-Za-z0-9_-]`, and no `/`, NUL or `..` — holds
    for `validate_mapper_name` of src/luks.rs.  The distinct `validate_mapper_name`
    of src/mapper.rs instead succeeds iff the name is non-empty, at most 128 bytes,
    starts with `luks-`, and contains no `/`, NUL or `..` (no character-class
    check). -/
theorem mapper_name_validation_characterization :
    (∀ n : List Char,
      Luks.validate_mapper_name n = .ok () ↔
        (n ≠ [] ∧ byteLen n ≤ 128 ∧ (∀ c ∈ n, c ∈ mapperNameClass) ∧
         '/' ∉ n ∧ '\x00' ∉ n ∧ containsSub "..".data n = false)) ∧
    (∀ n : List Char,
      Mapper.validate_mapper_name n = .ok () ↔
        (n ≠ [] ∧ byteLen n ≤ 128 ∧ startsWith "luks-".data n = true ∧
         '/' ∉ n ∧ '\x00' ∉ n ∧ containsSub "..".data n = false)) := by
  constructor
  · intro n
    simp only [Luks.validate_mapper_name]
    split_ifs with h1 h2 h3 h4
    · exact iff_of_false (by simp)
        (fun hR => hR.1 (by simpa [List.isEmpty_iff] using h1))
    · exact iff_of_false (by simp)
        (fun hR => absurd h2 (Nat.not_lt.mpr hR.2.1))
    · refine iff_of_false (by simp) (fun hR => ?_)
      rcases hR with ⟨-, -, -, hs, h0, hcs⟩
      simp only [Bool.or_eq_true] at h3
      rcases h3 with (hc | hc) | hc
      · exact absurd hc (by simp [hcs])
      · exact hs (by simpa using hc)
      · exact h0 (by simpa using hc)
    · refine iff_of_false (by simp) (fun hR => ?_)
      simp only [Bool.not_eq_eq_eq_not, Bool.not_true, List.all_eq_false] at h4
      obtain ⟨x, hx, hxn⟩ := h4
      exact hxn (by simpa using (mem_allowed_iff_class x).mpr (hR.2.2.1 x hx))
    · have hmem : ∀ c ∈ n, c ∈ Luks.ALLOWED_MAPPER_CHARS := by simpa using h4
      simp only [Bool.or_eq_true, not_or] at h3
      obtain ⟨⟨hcs, hsl⟩, h0⟩ := h3
      refine iff_of_true rfl
        ⟨fun hn => h1 (by simp [hn]), by omega,
         fun c hc => (mem_allowed_iff_class c).mp (by simpa using hmem c hc),
         fun hm => hsl (by simpa using hm),
         fun hm => h0 (by simpa using hm),
         by simpa using hcs⟩
  · intro n
    simp only [Mapper.validate_mapper_name]
    split_ifs with h1 h2 h3
    · refine iff_of_false (by simp) (fun hR => ?_)
      simp only [Bool.or_eq_true] at h1
      rcases h1 with hc | hc
      · exact hR.1 (by simpa [List.isEmpty_iff] using hc)
      · exact absurd (by simpa using hc) (Nat.not_lt.mpr hR.2.1)
    · exact iff_of_false (by simp)
        (fun hR => by simp [hR.2.2.1] at h2)
    · refine iff_of_false (by simp) (fun hR => ?_)
      rcases hR with ⟨-, -, -, hs, h0, hcs⟩
      simp only [Bool.or_eq_true] at h3
      rcases h3 with (hc | hc) | hc
      · exact hs (by simpa using hc)
      · exact h0 (by simpa using hc)
      · exact absurd hc (by simp [hcs])
    · simp only [Bool.or_eq_true, not_or] at h1 h3
      obtain ⟨he, hlen⟩ := h1
      obtain ⟨⟨hsl, h0⟩, hcs⟩ := h3
      have hlen2 : ¬ (byteLen n > 128) := by simpa using hlen
      refine iff_of_true rfl
        ⟨fun hn => he (by simp [hn]), by omega,
         by simpa using h2,
         fun hm => hsl (by simpa using hm),
         fun hm => h0 (by simpa using hm),
         by simpa using hcs⟩
/-- C4 counterexample: `abc` satisfies every condition of the claimed
    characterization, yet src/mapper.rs's `validate_mapper_name` rejects it for
    lacking the `luks-` prefix — so the claim is false of that function. -/
theorem mapper_name_claim_counterexample :
    ("abc".data ≠ [] ∧ byteLen "abc".data ≤ 128 ∧
     (∀ c ∈ "abc".data, c ∈ mapperNameClass) ∧
     '/' ∉ "abc".data ∧ '\x00' ∉ "abc".data ∧
     containsSub "..".data "abc".data = false) ∧
    Mapper.validate_mapper_name "abc".data = .error .nameMustStartLuks := by decide

/-- C4 witness: a well-formed owned name passes both validators. -/
theorem mapper_name_validation_characterization_witness :
    Luks.validate_mapper_name "luks-Abc_09".data = .ok () ∧
    Mapper.validate_mapper_name "luks-Abc_09".data = .ok () :=
  ⟨(mapper_name_validation_characterization.1 "luks-Abc_09".data).mpr (by decide),
   (mapper_name_validation_characterization.2 "luks-Abc_09".data).mpr (by decide)⟩

/-- C5 (amended): round-trip holds for a valid triple provided additionally that
    the mapper name contains no `:`, the record `name:device` fits in the 1024-byte
    cap, and the state-file path is not already occupied by a symlink or directory:
    then a successful store followed by get returns exactly the stored pair. -/
theorem store_get_roundtrip (fs fs' : Mapper.FsState) (mp mapper device esc : List Char)
    (hesc : Mapper.escape_mount_path mp = .ok esc)
    (hnode : fs.lookup esc = none ∨ ∃ c, fs.lookup esc = some (Mapper.FsNode.regular c))
    (hcolon : ':' ∉ mapper)
    (hsize : byteLen mapper + 1 + byteLen device ≤ 1024)
    (hstore : Mapper.store_mount_mapping fs mp mapper device = .ok fs') :
    Mapper.get_mount_mapping fs' mp = .ok (some (mapper, device)) := by
  cases hval : Mapper.validate_mapper_name mapper with
  | error e =>
    simp [Mapper.store_mount_mapping, hval, bind, Except.bind] at hstore
  | ok u =>
    cases u
    have hfs' : fs' = (esc, Mapper.FsNode.regular (mapper ++ ':' :: device)) :: fs := by
      rcases hnode with h | ⟨c, h⟩ <;>
        · simp [Mapper.store_mount_mapping, hval, hesc, h, bind, Except.bind] at hstore
          exact hstore.symm
    subst hfs'
    have hsplit := splitn2_append_of_no_sep ':' mapper device hcolon
    have hone : (':' : Char).utf8Size = 1 := rfl
    have hlen : byteLen (mapper ++ ':' :: device) = byteLen mapper + 1 + byteLen device := by
      rw [byteLen_append]
      simp [byteLen, hone]
      omega
    have hb : ¬ (byteLen (mapper ++ ':' :: device) > 1024) := by omega
    have hlk : List.lookup esc
        (((esc, Mapper.FsNode.regular (mapper ++ ':' :: device)) :: fs) : Mapper.FsState) =
        some (Mapper.FsNode.regular (mapper ++ ':' :: device)) := by
      simp [List.lookup]
    simp [Mapper.get_mount_mapping, hesc, Mapper.pathExists, bind, Except.bind, hlk,
      hsplit, hval, hb]

/-- C5 counterexample: `luks-a:b` passes src/mapper.rs's validation (which does
    not exclude `:`), store succeeds, but get splits at the first `:` and returns
    `(luks-a, b:/dev/sdb1)` instead of the stored pair — byte-exact round-trip
    fails. -/
theorem store_roundtrip_claim_counterexample :
    Mapper.validate_mapper_name "luks-a:b".data = .ok () ∧
    Mapper.escape_mount_path "/mnt/x".data = .ok "_mnt_x".data ∧
    Mapper.store_mount_mapping [] "/mnt/x".data "luks-a:b".data "/dev/sdb1".data =
      .ok [("_mnt_x".data, .regular "luks-a:b:/dev/sdb1".data)] ∧
    Mapper.get_mount_mapping
      [("_mnt_x".data, .regular "luks-a:b:/dev/sdb1".data)] "/mnt/x".data =
      .ok (some ("luks-a".data, "b:/dev/sdb1".data)) ∧
    (("luks-a".data, "b:/dev/sdb1".data) : List Char × List Char) ≠
      ("luks-a:b".data, "/dev/sdb1".data) := by decide

/-- C5 witness: a colon-free name round-trips exactly. -/
theorem store_get_roundtrip_witness :
    Mapper.get_mount_mapping
      [("_mnt_x".data, Mapper.FsNode.regular "luks-aaa:/dev/sda1".data)]
      "/mnt/x".data = .ok (some ("luks-aaa".data, "/dev/sda1".data)) :=
  store_get_roundtrip []
    [("_mnt_x".data, Mapper.FsNode.regular "luks-aaa:/dev/sda1".data)]
    "/mnt/x".data "luks-aaa".data "/dev/sda1".data "_mnt_x".data
    (by decide) (Or.inl (by decide)) (by decide) (by decide) (by decide)
